import Mathlib

/-!
Shallow embedding of the Grid Reservation & Settlement Engine of the
`olneycougars` repository (Next.js route handlers over a Supabase store),
together with proofs about the embedded operations.

Embedded source files:
* `src/app/api/squares/route.ts` (GET, POST — claim/release toggle)
* `src/app/api/squares/lock/route.ts` (POST — lock-in and permutation generation)
* `src/app/api/admin/lock-user/route.ts` (POST — administrative lock)
* the SQL schema (`superbowl_squares` with `UNIQUE(row_num, col_num)`,
  `superbowl_config` with `id = 1` singleton primary key)
* `src/app/lib/simpleAuth.ts` (`isAdmin`)

The Supabase store is modelled as a list of `superbowl_squares` rows plus an
optional `superbowl_config` singleton.  Each handler is a pure function of the
database state, the identity resolved from the session (`Option String`), the
request payload, and a record of fault flags saying which store calls fail at
the store level (network/database errors).  JavaScript `Math.random()` draws
are modelled by an arbitrary stream `draws : Nat → Nat`; the value used at
loop index `i` is `draws i % (i + 1)`, which ranges over exactly the values
`Math.floor(Math.random() * (i + 1))` can take.
-/

namespace Olney

/-- One row of the `superbowl_squares` table.  `row_num`/`col_num` are
`INTEGER` columns fed from JavaScript numbers, so they are modelled as `Int`. -/
structure Square where
  row_num : Int
  col_num : Int
  email : String
  locked : Bool
deriving DecidableEq, Repr

/-- The `superbowl_squares` table contents. -/
abbrev Grid := List Square

/-- The `superbowl_config` singleton row (without its fixed `id = 1`). -/
structure Config where
  row_sequence : List Nat
  col_sequence : List Nat
deriving DecidableEq, Repr

/-- The store state the embedded handlers touch: the squares table and the
optional config singleton (`id = 1 CHECK (id = 1)` allows at most one row). -/
structure DB where
  squares : Grid
  config : Option Config
deriving DecidableEq, Repr

/-! ### Store queries (supabase query builders used by the handlers) -/

/-- `.select(...).eq('email', e).eq('locked', true)` on `superbowl_squares`. -/
def lockedSquaresOf (g : Grid) (e : String) : List Square :=
  g.filter (fun s => s.email == e && s.locked)

/-- `.select(...).eq('email', e)` on `superbowl_squares`. -/
def squaresOf (g : Grid) (e : String) : List Square :=
  g.filter (fun s => s.email == e)

/-- `.select(...).eq('row_num', r).eq('col_num', c)` on `superbowl_squares`. -/
def squaresAt (g : Grid) (r c : Int) : List Square :=
  g.filter (fun s => s.row_num == r && s.col_num == c)

/-- `.select(...).eq('row_num', r).eq('col_num', c).single()`: `.single()`
yields data exactly when the filter matches one row, an error otherwise. -/
def singleSquare (g : Grid) (r c : Int) : Option Square :=
  match squaresAt g r c with
  | [s] => some s
  | _ => none

/-- `.delete().eq('row_num', r).eq('col_num', c).eq('email', e)`. -/
def deleteSquare (g : Grid) (r c : Int) (e : String) : Grid :=
  g.filter (fun s => !(s.row_num == r && s.col_num == c && s.email == e))

/-- `.insert({row_num, col_num, email, locked: false})` against the schema
constraint `UNIQUE(row_num, col_num)`: `none` is the uniqueness-constraint
violation (the coordinate already has a row), otherwise the row is added. -/
def insertSquare (g : Grid) (r c : Int) (e : String) : Option Grid :=
  if g.any (fun s => s.row_num == r && s.col_num == c) then none
  else some (g ++ [⟨r, c, e, false⟩])

/-- `.update({locked: true}).eq('email', e)` on `superbowl_squares`. -/
def lockAllOwnedBy (g : Grid) (e : String) : Grid :=
  g.map (fun s => if s.email == e then { s with locked := true } else s)

/-- `.select('*', {count: 'exact', head: true}).eq('locked', true)`. -/
def countLocked (g : Grid) : Nat :=
  (g.filter (fun s => s.locked)).length

/-- `isAdmin` from `src/app/lib/simpleAuth.ts`. -/
def isAdmin (email : String) : Bool :=
  email == "your-admin-email@example.com"

/-- `email.toLowerCase()`: character-wise lowercasing.  (`String.toLower` is
the same character map, but its `String.mapAux` loop does not reduce in the
kernel, so the map is expressed over the character list.) -/
def lowercase (s : String) : String :=
  ⟨s.data.map Char.toLower⟩

/-! ### Fisher–Yates shuffle (`generateRandomSequence` in
`src/app/api/squares/lock/route.ts`) -/

/-- The destructuring swap `[arr[i], arr[j]] = [arr[j], arr[i]]` on a list
(both indices are in bounds at every use site). -/
def listSwap (l : List Nat) (i j : Nat) : List Nat :=
  (l.set i (l.getD j 0)).set j (l.getD i 0)

/-- The loop `for (let i = arr.length - 1; i > 0; i--)`:
`fisherYatesLoop draws i l` runs the body for indices `i, i-1, …, 1`.
The draw `Math.floor(Math.random() * (i + 1))` at index `i` is modelled as
`draws i % (i + 1)`, covering exactly the interval `[0, i]`. -/
def fisherYatesLoop (draws : Nat → Nat) : Nat → List Nat → List Nat
  | 0, l => l
  | Nat.succ k, l =>
      fisherYatesLoop draws k (listSwap l (k + 1) (draws (k + 1) % (k + 2)))

/-- `generateRandomSequence`: Fisher–Yates shuffle of `[0,…,9]`. -/
def generateRandomSequence (draws : Nat → Nat) : List Nat :=
  fisherYatesLoop draws 9 [0, 1, 2, 3, 4, 5, 6, 7, 8, 9]

/-! ### Responses and fault models of the route handlers

Each constructor corresponds to one `NextResponse.json(...)` site of the
embedded handler; `status` recovers the HTTP status code attached there. -/

/-- Responses of `POST /api/squares` (`src/app/api/squares/route.ts`). -/
inductive SquaresResponse where
  /-- 401 `Not authenticated` -/
  | notAuthenticated
  /-- 400 `Invalid row or column` -/
  | invalidRowCol
  /-- 403 `You have already locked in your squares` -/
  | alreadyLockedIn
  /-- 403 `Square is taken by another user` -/
  | takenByAnother
  /-- 403 `Cannot modify locked squares` -/
  | cannotModifyLocked
  /-- 500 `Failed to release square` -/
  | failedToRelease
  /-- 500 `Failed to claim square` -/
  | failedToClaim
  /-- 200 `{action: 'released', row, col}` -/
  | released (row col : Int)
  /-- 200 `{action: 'claimed', row, col, email}` -/
  | claimed (row col : Int) (email : String)
deriving DecidableEq, Repr

/-- HTTP status of each `POST /api/squares` response site. -/
def SquaresResponse.status : SquaresResponse → Nat
  | .notAuthenticated => 401
  | .invalidRowCol => 400
  | .alreadyLockedIn => 403
  | .takenByAnother => 403
  | .cannotModifyLocked => 403
  | .failedToRelease => 500
  | .failedToClaim => 500
  | .released _ _ => 200
  | .claimed _ _ _ => 200

/-- Responses of `GET /api/squares`. -/
inductive GetResponse where
  /-- 500 `Failed to fetch squares` -/
  | failedToFetch
  /-- 200 `{squares, config}` (`config` is `null` when absent). -/
  | ok (squares : Grid) (config : Option Config)
deriving DecidableEq, Repr

/-- Responses of `POST /api/squares/lock` (`src/app/api/squares/lock/route.ts`). -/
inductive LockResponse where
  /-- 401 `Not authenticated` -/
  | notAuthenticated
  /-- 500 `Failed to fetch your squares` -/
  | failedToFetch
  /-- 400 `You have no squares to lock` -/
  | noSquaresToLock
  /-- 400 `Your squares are already locked` -/
  | alreadyLocked
  /-- 500 `Failed to lock squares` -/
  | failedToLock
  /-- 200 `{success, message: Locked N square(s), config}`; `n` is the
  number of the caller's squares reported in the message. -/
  | success (n : Nat) (config : Option Config)
deriving DecidableEq, Repr

/-- HTTP status of each `POST /api/squares/lock` response site. -/
def LockResponse.status : LockResponse → Nat
  | .notAuthenticated => 401
  | .failedToFetch => 500
  | .noSquaresToLock => 400
  | .alreadyLocked => 400
  | .failedToLock => 500
  | .success _ _ => 200

/-- Responses of `POST /api/admin/lock-user` (`src/app/api/admin/lock-user/route.ts`). -/
inductive AdminLockResponse where
  /-- 401 `Not authenticated` -/
  | notAuthenticated
  /-- 403 `Not authorized` -/
  | notAuthorized
  /-- 400 `Email is required` -/
  | emailRequired
  /-- 500 `Failed to lock squares` -/
  | failedToLock
  /-- 200 `{success, message: Locked N squares for email}`.  The handler
  requests no count option on `.update(...).select()`, so `count` is `null`
  and the reported `count || 0` is always `0`. -/
  | success (reportedCount : Nat)
deriving DecidableEq, Repr

/-- Fault flags for the store calls of `POST /api/squares`.  A `true` flag
makes that call return a store-level error; the handler reads `data` (which
is then `null`) for the two selects and checks `error` for the two writes. -/
structure SquaresFaults where
  lockedReadFails : Bool
  cellReadFails : Bool
  deleteFails : Bool
  insertFails : Bool
deriving DecidableEq, Repr

/-- All store calls succeed. -/
def noSquaresFaults : SquaresFaults := ⟨false, false, false, false⟩

/-- Fault flags for the store calls of `GET /api/squares`. -/
structure GetFaults where
  squaresReadFails : Bool
  configReadFails : Bool
deriving DecidableEq, Repr

/-- Fault flags for the store calls of `POST /api/squares/lock`. -/
structure LockFaults where
  fetchFails : Bool
  updateFails : Bool
  countFails : Bool
  configReadFails : Bool
  configInsertFails : Bool
deriving DecidableEq, Repr

/-- All store calls succeed. -/
def noLockFaults : LockFaults := ⟨false, false, false, false, false⟩

/-! ### The route handlers -/

/-- `GET` of `src/app/api/squares/route.ts`.  Only `squaresResult.error` is
checked; a failed config read leaves `configResult.data` as `null` and the
handler answers `config: configResult.data || null`. -/
def squaresGet (db : DB) (f : GetFaults) : GetResponse :=
  if f.squaresReadFails then .failedToFetch
  else
    let configData : Option Config := if f.configReadFails then none else db.config
    .ok db.squares configData

/-- `POST` of `src/app/api/squares/route.ts`: the claim/release toggle.
`user` is `getUser()`; `row`/`col` are the JSON payload numbers.  The two
advisory reads discard their `error` field, so a failed read behaves as
empty data. -/
def squaresPost (g : Grid) (f : SquaresFaults) (user : Option String) (row col : Int) :
    SquaresResponse × Grid :=
  match user with
  | none => (.notAuthenticated, g)
  | some email =>
    if row < 0 || row > 9 || col < 0 || col > 9 then (.invalidRowCol, g)
    else
      let userSquares : List Square :=
        if f.lockedReadFails then [] else (lockedSquaresOf g email).take 1
      if userSquares.length > 0 then (.alreadyLockedIn, g)
      else
        let existingSquare : Option Square :=
          if f.cellReadFails then none else singleSquare g row col
        match existingSquare with
        | some sq =>
          if sq.email ≠ email then (.takenByAnother, g)
          else if sq.locked then (.cannotModifyLocked, g)
          else if f.deleteFails then (.failedToRelease, g)
          else (.released row col, deleteSquare g row col email)
        | none =>
          if f.insertFails then (.failedToClaim, g)
          else
            match insertSquare g row col email with
            | none => (.failedToClaim, g)
            | some g' => (.claimed row col email, g')

/-- `POST` of `src/app/api/squares/lock/route.ts`: per-participant lock-in and
the grid-full generation transition.  `sendSquaresNotification` swallows its
own failures (`src/app/lib/twilio.ts`) and touches no store state, so it has
no footprint here.  The count query and the config read discard their errors
(`count` is then `null`, `existingConfig` is then `null`); a failed config
insert is only logged and the handler still answers success. -/
def lockPost (db : DB) (f : LockFaults) (user : Option String)
    (rowDraws colDraws : Nat → Nat) : LockResponse × DB :=
  match user with
  | none => (.notAuthenticated, db)
  | some email =>
    if f.fetchFails then (.failedToFetch, db)
    else
      let userSquares := squaresOf db.squares email
      if userSquares.length = 0 then (.noSquaresToLock, db)
      else if userSquares.any (fun s => s.locked) then (.alreadyLocked, db)
      else if f.updateFails then (.failedToLock, db)
      else
        let squares' := lockAllOwnedBy db.squares email
        let lockedCount : Option Nat := if f.countFails then none else some (countLocked squares')
        if lockedCount = some 100 then
          let existingConfig : Option Config := if f.configReadFails then none else db.config
          match existingConfig with
          | some cfg => (.success userSquares.length (some cfg), ⟨squares', db.config⟩)
          | none =>
            let newConfig : Config :=
              ⟨generateRandomSequence rowDraws, generateRandomSequence colDraws⟩
            if f.configInsertFails || db.config.isSome then
              (.success userSquares.length none, ⟨squares', db.config⟩)
            else
              (.success userSquares.length (some newConfig), ⟨squares', some newConfig⟩)
        else (.success userSquares.length none, ⟨squares', db.config⟩)

/-- `POST` of `src/app/api/admin/lock-user/route.ts`: administrative bulk lock
of one participant's squares.  The request body must carry a non-empty string
`email`; the update targets the lowercased email and has no guards. -/
def adminLockUser (g : Grid) (updateFails : Bool) (user : Option String) (email : String) :
    AdminLockResponse × Grid :=
  match user with
  | none => (.notAuthenticated, g)
  | some u =>
    if !(isAdmin u) then (.notAuthorized, g)
    else if email = "" then (.emailRequired, g)
    else if updateFails then (.failedToLock, g)
    else (.success 0, lockAllOwnedBy g (lowercase email))

/-! ### Concrete data used by witnesses -/

/-- A full grid: all 100 coordinates owned (unlocked) by one participant. -/
def fullGrid : Grid :=
  (List.range 100).map (fun n => ⟨(n / 10 : Nat), (n % 10 : Nat), "alice@x.com", false⟩)

/-- A sample pre-existing configuration. -/
def sampleConfig : Config := ⟨List.range 10, List.range 10⟩

/-! ### Permutation facts about the shuffle -/

theorem listSwap_perm (l : List Nat) (i j : Nat) (hi : i < l.length) (hj : j < l.length) :
    (listSwap l i j).Perm l := by
  have hgi : l.getD i 0 = l[i] := List.getD_eq_getElem l 0 hi
  have hgj : l.getD j 0 = l[j] := List.getD_eq_getElem l 0 hj
  have hj' : j < (l.set i (l.getD j 0)).length := by simpa using hj
  rw [List.perm_iff_count]
  intro b
  unfold listSwap
  rw [List.count_set _ _ _ _ hj', List.count_set _ _ _ _ hi]
  simp only [List.getElem_set, hgi, hgj]
  have hcx : l[i] = b → 0 < l.count b := fun h => List.count_pos_iff.mpr (h ▸ l.getElem_mem hi)
  have hcy : l[j] = b → 0 < l.count b := fun h => List.count_pos_iff.mpr (h ▸ l.getElem_mem hj)
  rcases eq_or_ne i j with rfl | hne
  · simp only [if_pos rfl]
    by_cases hx : l[i] = b <;> simp only [beq_iff_eq, hx, reduceIte] <;> omega
  · simp only [if_neg hne]
    by_cases hx : l[i] = b <;> by_cases hy : l[j] = b <;>
      simp only [beq_iff_eq, hx, hy, reduceIte]
    · have := hcx hx
      omega
    · have := hcx hx
      omega
    · have := hcy hy
      omega
    · omega

theorem fisherYatesLoop_perm (draws : Nat → Nat) :
    ∀ (k : Nat) (l : List Nat), k < l.length → (fisherYatesLoop draws k l).Perm l := by
  intro k
  induction k with
  | zero => intro l _; exact List.Perm.refl l
  | succ k ih =>
      intro l hk
      have hj : draws (k + 1) % (k + 2) < l.length :=
        lt_of_lt_of_le (Nat.mod_lt _ (Nat.succ_pos _)) hk
      have hswap : (listSwap l (k + 1) (draws (k + 1) % (k + 2))).Perm l :=
        listSwap_perm l _ _ hk hj
      have hlen : (listSwap l (k + 1) (draws (k + 1) % (k + 2))).length = l.length := by
        simp [listSwap]
      have : k < (listSwap l (k + 1) (draws (k + 1) % (k + 2))).length := by
        omega
      exact (ih _ this).trans hswap

theorem generateRandomSequence_perm (draws : Nat → Nat) :
    (generateRandomSequence draws).Perm (List.range 10) := by
  have h10 : List.range 10 = [0, 1, 2, 3, 4, 5, 6, 7, 8, 9] := by decide
  have := fisherYatesLoop_perm draws 9 [0, 1, 2, 3, 4, 5, 6, 7, 8, 9] (by decide)
  rw [generateRandomSequence, h10]
  exact this

/-! ### Basic facts about the store queries -/

theorem mem_squaresAt_iff (g : Grid) (r c : Int) (s : Square) :
    s ∈ squaresAt g r c ↔ s ∈ g ∧ s.row_num = r ∧ s.col_num = c := by
  simp [squaresAt, List.mem_filter]

theorem lockedSquaresOf_eq_nil_iff (g : Grid) (e : String) :
    lockedSquaresOf g e = [] ↔ ∀ s ∈ g, s.email = e → s.locked = false := by
  simp only [lockedSquaresOf, List.filter_eq_nil_iff]
  constructor
  · intro h s hs he
    have := h s hs
    simp [he] at this
    exact this
  · intro h s hs
    by_cases he : s.email = e
    · simp [he, h s hs he]
    · simp [he]

theorem singleSquare_of_squaresAt_single (g : Grid) (r c : Int) (sq : Square)
    (h : squaresAt g r c = [sq]) : singleSquare g r c = some sq := by
  rw [singleSquare, h]

theorem singleSquare_of_squaresAt_nil (g : Grid) (r c : Int)
    (h : squaresAt g r c = []) : singleSquare g r c = none := by
  rw [singleSquare, h]

theorem insertSquare_of_squaresAt_nil (g : Grid) (r c : Int) (e : String)
    (h : squaresAt g r c = []) :
    insertSquare g r c e = some (g ++ [⟨r, c, e, false⟩]) := by
  rw [insertSquare, if_neg]
  intro hany
  obtain ⟨s, hs, hp⟩ := List.any_eq_true.mp hany
  have : s ∈ squaresAt g r c := List.mem_filter.mpr ⟨hs, hp⟩
  rw [h] at this
  exact absurd this (List.not_mem_nil s)

theorem mem_deleteSquare_iff (g : Grid) (r c : Int) (e : String) (s : Square) :
    s ∈ deleteSquare g r c e ↔
      s ∈ g ∧ ¬(s.row_num = r ∧ s.col_num = c ∧ s.email = e) := by
  have hpred : ∀ t : Square,
      ((!(t.row_num == r && t.col_num == c && t.email == e)) = true) ↔
        ¬(t.row_num = r ∧ t.col_num = c ∧ t.email = e) := by
    intro t
    simp only [Bool.not_eq_true', Bool.and_eq_false_iff, beq_eq_false_iff_ne, ne_eq,
      not_and]
    tauto
  simp only [deleteSquare, List.mem_filter, hpred, not_and]

/-! ### C1 — the claim/release toggle -/

/-- **C1.** For an authenticated participant with in-range coordinates:
with no locked cell, clicking an unowned cell inserts
`(row, col, participant, locked=false)` and answers `claimed`; clicking a
cell the participant owns unlocked deletes that cell and answers `released`;
clicking a cell owned by someone else fails Forbidden (403) with no state
change; and clicking a cell owned by the participant but locked fails
Forbidden (403) with no state change. -/
theorem toggle_claim_release_cases (g : Grid) (e : String) (row col : Int)
    (hr0 : 0 ≤ row) (hr9 : row ≤ 9) (hc0 : 0 ≤ col) (hc9 : col ≤ 9) :
    (lockedSquaresOf g e = [] → squaresAt g row col = [] →
      squaresPost g noSquaresFaults (some e) row col =
        (.claimed row col e, g ++ [⟨row, col, e, false⟩])) ∧
    (∀ sq, lockedSquaresOf g e = [] → squaresAt g row col = [sq] →
      sq.email = e → sq.locked = false →
      (squaresPost g noSquaresFaults (some e) row col).1 = .released row col ∧
      ∀ s, s ∈ (squaresPost g noSquaresFaults (some e) row col).2 ↔
        s ∈ g ∧ ¬(s.row_num = row ∧ s.col_num = col)) ∧
    (∀ sq, lockedSquaresOf g e = [] → squaresAt g row col = [sq] →
      sq.email ≠ e →
      squaresPost g noSquaresFaults (some e) row col = (.takenByAnother, g) ∧
      SquaresResponse.takenByAnother.status = 403) ∧
    (∀ sq, squaresAt g row col = [sq] → sq.email = e → sq.locked = true →
      (squaresPost g noSquaresFaults (some e) row col).1.status = 403 ∧
      (squaresPost g noSquaresFaults (some e) row col).2 = g) := by
  have hrange : ¬(row < 0 || row > 9 || col < 0 || col > 9 : Bool) = true := by
    simp only [Bool.or_eq_true, decide_eq_true_eq]
    push_neg
    omega
  refine ⟨?_, ?_, ?_, ?_⟩
  · intro hnl hempty
    simp only [squaresPost, noSquaresFaults, if_neg hrange, Bool.false_eq_true, reduceIte,
      hnl, List.take_nil, List.length_nil, gt_iff_lt, lt_self_iff_false,
      singleSquare_of_squaresAt_nil g row col hempty,
      insertSquare_of_squaresAt_nil g row col e hempty]
  · intro sq hnl hone hemail hunlocked
    have hsingle := singleSquare_of_squaresAt_single g row col sq hone
    simp only [squaresPost, noSquaresFaults, if_neg hrange, Bool.false_eq_true, reduceIte,
      hnl, List.take_nil, List.length_nil, gt_iff_lt, lt_self_iff_false, hsingle,
      hemail, ne_eq, not_true_eq_false, hunlocked]
    refine ⟨by trivial, fun s => ?_⟩
    rw [mem_deleteSquare_iff]
    constructor
    · rintro ⟨hs, hp⟩
      refine ⟨hs, ?_⟩
      rintro ⟨hrow, hcol⟩
      have hmem : s ∈ squaresAt g row col := (mem_squaresAt_iff g row col s).mpr ⟨hs, hrow, hcol⟩
      rw [hone] at hmem
      have hssq : s = sq := by simpa using hmem
      exact hp ⟨hrow, hcol, by rw [hssq, hemail]⟩
    · rintro ⟨hs, hnc⟩
      exact ⟨hs, fun h => hnc ⟨h.1, h.2.1⟩⟩
  · intro sq hnl hone hemail
    have hsingle := singleSquare_of_squaresAt_single g row col sq hone
    simp only [squaresPost, noSquaresFaults, if_neg hrange, Bool.false_eq_true, reduceIte,
      hnl, List.take_nil, List.length_nil, gt_iff_lt, lt_self_iff_false, hsingle,
      ne_eq, hemail, not_false_eq_true, SquaresResponse.status]
    constructor <;> trivial
  · intro sq hone hemail hlocked
    have hsq_mem : sq ∈ g := ((mem_squaresAt_iff g row col sq).mp (hone ▸ List.mem_singleton_self sq)).1
    have hguard : lockedSquaresOf g e ≠ [] := by
      intro hnil
      have := (lockedSquaresOf_eq_nil_iff g e).mp hnil sq hsq_mem hemail
      rw [hlocked] at this
      exact Bool.noConfusion this
    have hsingle := singleSquare_of_squaresAt_single g row col sq hone
    rcases hlock_cases : lockedSquaresOf g e with _ | ⟨t, ts⟩
    · exact absurd hlock_cases hguard
    · simp only [squaresPost, noSquaresFaults, if_neg hrange, Bool.false_eq_true, reduceIte,
        hlock_cases, List.take_succ_cons, List.take_zero, List.length_cons, List.length_nil,
        gt_iff_lt, Nat.zero_lt_one, if_pos, SquaresResponse.status]
      constructor <;> trivial

/-- Witness for C1: all four toggle outcomes at concrete inputs. -/
theorem toggle_claim_release_cases_witness :
    (squaresPost [] noSquaresFaults (some "alice@x.com") 3 4 =
      (.claimed 3 4 "alice@x.com", [⟨3, 4, "alice@x.com", false⟩])) ∧
    ((squaresPost [⟨3, 4, "alice@x.com", false⟩] noSquaresFaults
        (some "alice@x.com") 3 4).1 = .released 3 4) ∧
    (squaresPost [⟨3, 4, "alice@x.com", false⟩] noSquaresFaults (some "bob@x.com") 3 4 =
      (.takenByAnother, [⟨3, 4, "alice@x.com", false⟩])) ∧
    ((squaresPost [⟨3, 4, "alice@x.com", true⟩] noSquaresFaults
        (some "alice@x.com") 3 4).1.status = 403) := by
  refine ⟨?_, ?_, ?_, ?_⟩
  · exact (toggle_claim_release_cases [] "alice@x.com" 3 4
      (by decide) (by decide) (by decide) (by decide)).1 (by decide) (by decide)
  · exact ((toggle_claim_release_cases [⟨3, 4, "alice@x.com", false⟩] "alice@x.com" 3 4
      (by decide) (by decide) (by decide) (by decide)).2.1
      ⟨3, 4, "alice@x.com", false⟩ (by decide) (by decide) rfl rfl).1
  · exact ((toggle_claim_release_cases [⟨3, 4, "alice@x.com", false⟩] "bob@x.com" 3 4
      (by decide) (by decide) (by decide) (by decide)).2.2.1
      ⟨3, 4, "alice@x.com", false⟩ (by decide) (by decide) (by decide)).1
  · exact ((toggle_claim_release_cases [⟨3, 4, "alice@x.com", true⟩] "alice@x.com" 3 4
      (by decide) (by decide) (by decide) (by decide)).2.2.2
      ⟨3, 4, "alice@x.com", true⟩ (by decide) rfl rfl).1

/-! ### Frame lemmas for the toggle (C8) -/

theorem filter_not_of_filter_single {α : Type} [DecidableEq α] (p : α → Bool) :
    ∀ (l : List α) (x : α), l.filter p = [x] → l.filter (fun a => !(p a)) = l.erase x := by
  intro l
  induction l with
  | nil => intro x h; exact absurd h (by simp)
  | cons a t ih =>
      intro x h
      by_cases hpa : p a = true
      · rw [List.filter_cons_of_pos hpa] at h
        have hax : a = x := by simpa using congrArg (·.headD a) h
        have htail : t.filter p = [] := by simpa using congrArg List.tail h
        have hall : ∀ b ∈ t, ¬p b = true := List.filter_eq_nil_iff.mp htail
        rw [List.filter_cons_of_neg (by simp [hpa]), hax, List.erase_cons_head]
        exact List.filter_eq_self.mpr (by simpa using hall)
      · rw [List.filter_cons_of_neg hpa] at h
        have hx : p x = true := by
          have : x ∈ t.filter p := h ▸ List.mem_singleton_self x
          exact (List.mem_filter.mp this).2
        have hax : ¬(a == x) = true := by
          simp only [beq_iff_eq]
          intro hax
          rw [hax] at hpa
          exact hpa hx
        rw [List.filter_cons_of_pos (by simp [hpa]), List.erase_cons_tail hax]
        exact congrArg (a :: ·) (ih x h)

theorem deleteSquare_pred_filter (g : Grid) (r c : Int) (e : String) (sq : Square)
    (hone : squaresAt g r c = [sq]) (hemail : sq.email = e) :
    g.filter (fun s => s.row_num == r && s.col_num == c && s.email == e) = [sq] := by
  have hsplit : ∀ s : Square,
      (s.row_num == r && s.col_num == c && s.email == e) =
        ((s.email == e) && (s.row_num == r && s.col_num == c)) := by
    intro s
    cases s.row_num == r <;> cases s.col_num == c <;> cases s.email == e <;> rfl
  rw [List.filter_congr (fun s _ => hsplit s), ← List.filter_filter]
  rw [squaresAt] at hone
  rw [hone, List.filter_cons_of_pos (by simp [hemail]), List.filter_nil]

theorem deleteSquare_eq_erase (g : Grid) (r c : Int) (e : String) (sq : Square)
    (hone : squaresAt g r c = [sq]) (hemail : sq.email = e) :
    deleteSquare g r c e = g.erase sq :=
  filter_not_of_filter_single _ g sq (deleteSquare_pred_filter g r c e sq hone hemail)

theorem squaresAt_deleteSquare_other (g : Grid) (r c : Int) (e : String) (r' c' : Int)
    (hne : ¬(r' = r ∧ c' = c)) :
    squaresAt (deleteSquare g r c e) r' c' = squaresAt g r' c' := by
  rw [squaresAt, deleteSquare, List.filter_filter]
  refine List.filter_congr fun s _ => ?_
  by_cases hp : (s.row_num == r' && s.col_num == c') = true
  · have hcoords : s.row_num = r' ∧ s.col_num = c' := by
      simpa [Bool.and_eq_true, beq_iff_eq] using hp
    have hnot : (s.row_num == r && s.col_num == c && s.email == e) = false := by
      rcases not_and_or.mp hne with h | h
      · have hb : (s.row_num == r) = false := by simp [hcoords.1, h]
        simp [hb]
      · have hb : (s.col_num == c) = false := by simp [hcoords.2, h]
        simp [hb]
    simp [hp, hnot]
  · simp [Bool.and_eq_false_iff] at hp ⊢
    tauto

theorem squaresAt_deleteSquare_self (g : Grid) (r c : Int) (e : String) (sq : Square)
    (hone : squaresAt g r c = [sq]) (hemail : sq.email = e) :
    squaresAt (deleteSquare g r c e) r c = [] := by
  rw [squaresAt, List.filter_eq_nil_iff]
  intro s hs hp
  have hsg : s ∈ g := (List.mem_filter.mp hs).1
  have hkeep := (List.mem_filter.mp hs).2
  have hmem : s ∈ squaresAt g r c := List.mem_filter.mpr ⟨hsg, hp⟩
  rw [hone] at hmem
  have hssq : s = sq := by simpa using hmem
  rw [hssq] at hkeep
  have hmem' : sq ∈ squaresAt g r c := hone ▸ List.mem_singleton_self sq
  have hcoordb := (List.mem_filter.mp hmem').2
  have hcoords : sq.row_num = r ∧ sq.col_num = c := by
    simpa [Bool.and_eq_true, beq_iff_eq] using hcoordb
  simp [hcoords.1, hcoords.2, hemail] at hkeep

theorem squaresAt_append_other (g : Grid) (x : Square) (r' c' : Int)
    (hne : ¬(x.row_num = r' ∧ x.col_num = c')) :
    squaresAt (g ++ [x]) r' c' = squaresAt g r' c' := by
  rw [squaresAt, List.filter_append, squaresAt]
  have : [x].filter (fun s => s.row_num == r' && s.col_num == c') = [] := by
    rw [List.filter_eq_nil_iff]
    intro s hs hp
    have : s = x := by simpa using hs
    rw [this] at hp
    exact hne (by simpa [Bool.and_eq_true, beq_iff_eq] using hp)
  rw [this, List.append_nil]

theorem squaresPost_release_eq (g : Grid) (e : String) (row col : Int) (sq : Square)
    (hr0 : 0 ≤ row) (hr9 : row ≤ 9) (hc0 : 0 ≤ col) (hc9 : col ≤ 9)
    (hnl : lockedSquaresOf g e = []) (hone : squaresAt g row col = [sq])
    (hemail : sq.email = e) (hunlocked : sq.locked = false) :
    squaresPost g noSquaresFaults (some e) row col =
      (.released row col, deleteSquare g row col e) := by
  have hrange : ¬(row < 0 || row > 9 || col < 0 || col > 9 : Bool) = true := by
    simp only [Bool.or_eq_true, decide_eq_true_eq]
    push_neg
    omega
  have hsingle := singleSquare_of_squaresAt_single g row col sq hone
  simp only [squaresPost, noSquaresFaults, if_neg hrange, Bool.false_eq_true, reduceIte,
    hnl, List.take_nil, List.length_nil, gt_iff_lt, lt_self_iff_false, hsingle,
    hemail, ne_eq, not_true_eq_false, hunlocked]

theorem squaresPost_claim_eq (g : Grid) (e : String) (row col : Int)
    (hr0 : 0 ≤ row) (hr9 : row ≤ 9) (hc0 : 0 ≤ col) (hc9 : col ≤ 9)
    (hnl : lockedSquaresOf g e = []) (hempty : squaresAt g row col = []) :
    squaresPost g noSquaresFaults (some e) row col =
      (.claimed row col e, g ++ [⟨row, col, e, false⟩]) := by
  have hrange : ¬(row < 0 || row > 9 || col < 0 || col > 9 : Bool) = true := by
    simp only [Bool.or_eq_true, decide_eq_true_eq]
    push_neg
    omega
  simp only [squaresPost, noSquaresFaults, if_neg hrange, Bool.false_eq_true, reduceIte,
    hnl, List.take_nil, List.length_nil, gt_iff_lt, lt_self_iff_false,
    singleSquare_of_squaresAt_nil g row col hempty,
    insertSquare_of_squaresAt_nil g row col e hempty]

/-- **C8.** A successful toggle touches only the cell at `(row, col)`: a
release removes exactly the single matching row (the new grid is the old one
with that one row erased, and no row remains at the coordinate), a claim adds
exactly the single row `(row, col, participant, locked=false)`, and in both
cases the rows at every other coordinate are exactly the rows that were
there before (same owner, same locked flag). -/
theorem toggle_touches_only_target (g : Grid) (e : String) (row col : Int)
    (hr0 : 0 ≤ row) (hr9 : row ≤ 9) (hc0 : 0 ≤ col) (hc9 : col ≤ 9)
    (hnl : lockedSquaresOf g e = []) :
    (∀ sq, squaresAt g row col = [sq] → sq.email = e → sq.locked = false →
      (squaresPost g noSquaresFaults (some e) row col).1 = .released row col ∧
      (squaresPost g noSquaresFaults (some e) row col).2 = g.erase sq ∧
      squaresAt (squaresPost g noSquaresFaults (some e) row col).2 row col = [] ∧
      ∀ r' c', ¬(r' = row ∧ c' = col) →
        squaresAt (squaresPost g noSquaresFaults (some e) row col).2 r' c' =
          squaresAt g r' c') ∧
    (squaresAt g row col = [] →
      (squaresPost g noSquaresFaults (some e) row col).1 = .claimed row col e ∧
      (squaresPost g noSquaresFaults (some e) row col).2 = g ++ [⟨row, col, e, false⟩] ∧
      squaresAt (squaresPost g noSquaresFaults (some e) row col).2 row col =
        [⟨row, col, e, false⟩] ∧
      ∀ r' c', ¬(r' = row ∧ c' = col) →
        squaresAt (squaresPost g noSquaresFaults (some e) row col).2 r' c' =
          squaresAt g r' c') := by
  constructor
  · intro sq hone hemail hunlocked
    have heq := squaresPost_release_eq g e row col sq hr0 hr9 hc0 hc9 hnl hone hemail hunlocked
    rw [heq]
    refine ⟨rfl, deleteSquare_eq_erase g row col e sq hone hemail,
      squaresAt_deleteSquare_self g row col e sq hone hemail,
      fun r' c' hne => squaresAt_deleteSquare_other g row col e r' c' hne⟩
  · intro hempty
    have heq := squaresPost_claim_eq g e row col hr0 hr9 hc0 hc9 hnl hempty
    rw [heq]
    refine ⟨rfl, rfl, ?_, fun r' c' hne => squaresAt_append_other g _ r' c' (by
      intro hco
      exact hne ⟨hco.1.symm ▸ rfl, hco.2.symm ▸ rfl⟩)⟩
    rw [squaresAt, List.filter_append, ← squaresAt, hempty, List.nil_append,
      List.filter_cons_of_pos (by simp), List.filter_nil]

/-- Witness for C8: the release and claim frame facts at concrete inputs. -/
theorem toggle_touches_only_target_witness :
    ((squaresPost [⟨3, 4, "alice@x.com", false⟩, ⟨5, 6, "bob@x.com", true⟩]
        noSquaresFaults (some "alice@x.com") 3 4).2 = [⟨5, 6, "bob@x.com", true⟩]) ∧
    (squaresAt (squaresPost [⟨5, 6, "bob@x.com", true⟩] noSquaresFaults
        (some "alice@x.com") 3 4).2 5 6 = squaresAt [⟨5, 6, "bob@x.com", true⟩] 5 6) := by
  constructor
  · exact (((toggle_touches_only_target
      [⟨3, 4, "alice@x.com", false⟩, ⟨5, 6, "bob@x.com", true⟩] "alice@x.com" 3 4
      (by decide) (by decide) (by decide) (by decide) (by decide)).1
      ⟨3, 4, "alice@x.com", false⟩ (by decide) rfl rfl).2.1).trans (by decide)
  · exact ((toggle_touches_only_target [⟨5, 6, "bob@x.com", true⟩] "alice@x.com" 3 4
      (by decide) (by decide) (by decide) (by decide) (by decide)).2
      (by decide)).2.2.2 5 6 (by decide)

/-! ### Facts about the bulk lock update -/

theorem lockAllOwnedBy_locks (g : Grid) (e : String) :
    ∀ s ∈ lockAllOwnedBy g e, s.email = e → s.locked = true := by
  intro s hs he
  rw [lockAllOwnedBy, List.mem_map] at hs
  obtain ⟨t, ht, rfl⟩ := hs
  by_cases h : t.email = e
  · simp [h]
  · rw [if_neg (by simpa using h)] at he ⊢
    exact absurd he h

theorem lockAllOwnedBy_length (g : Grid) (e : String) :
    (lockAllOwnedBy g e).length = g.length := by
  rw [lockAllOwnedBy, List.length_map]

theorem lockAllOwnedBy_identity (g : Grid) (e : String) :
    (lockAllOwnedBy g e).map (fun s => (s.row_num, s.col_num, s.email)) =
      g.map (fun s => (s.row_num, s.col_num, s.email)) := by
  rw [lockAllOwnedBy, List.map_map]
  refine List.map_congr_left fun t _ => ?_
  by_cases h : t.email = e <;> simp [h]

theorem lockAllOwnedBy_other_unchanged (g : Grid) (e : String) :
    (lockAllOwnedBy g e).filter (fun s => !(s.email == e)) =
      g.filter (fun s => !(s.email == e)) := by
  induction g with
  | nil => rfl
  | cons a t ih =>
      by_cases h : a.email = e
      · simp only [lockAllOwnedBy, List.map_cons] at ih ⊢
        rw [if_pos (by simpa using h)]
        rw [List.filter_cons_of_neg (by simp [h]), List.filter_cons_of_neg (by simp [h])]
        exact ih
      · simp only [lockAllOwnedBy, List.map_cons] at ih ⊢
        rw [if_neg (by simpa using h)]
        rw [List.filter_cons_of_pos (by simp [h]), List.filter_cons_of_pos (by simp [h])]
        exact congrArg (a :: ·) ih

theorem lockAllOwnedBy_of_all_locked (g : Grid) (e : String)
    (h : ∀ s ∈ g, s.email = e → s.locked = true) : lockAllOwnedBy g e = g := by
  rw [lockAllOwnedBy]
  have : ∀ s ∈ g, (if s.email == e then { s with locked := true } else s) = s := by
    intro s hs
    by_cases he : s.email = e
    · rw [if_pos (by simpa using he)]
      have := h s hs he
      cases s
      simp only [Square.mk.injEq]
      simp_all
    · rw [if_neg (by simpa using he)]
  rw [List.map_congr_left this]
  exact List.map_id g

/-! ### The lock-in success path and the generation transition -/

theorem lockPost_noFaults_eq (db : DB) (e : String) (rd cd : Nat → Nat)
    (hne : squaresOf db.squares e ≠ [])
    (hall : ∀ s ∈ squaresOf db.squares e, s.locked = false) :
    lockPost db noLockFaults (some e) rd cd =
      if countLocked (lockAllOwnedBy db.squares e) = 100 then
        match db.config with
        | some cfg =>
            (.success (squaresOf db.squares e).length (some cfg),
             ⟨lockAllOwnedBy db.squares e, db.config⟩)
        | none =>
            (.success (squaresOf db.squares e).length
               (some ⟨generateRandomSequence rd, generateRandomSequence cd⟩),
             ⟨lockAllOwnedBy db.squares e,
              some ⟨generateRandomSequence rd, generateRandomSequence cd⟩⟩)
      else
        (.success (squaresOf db.squares e).length none,
         ⟨lockAllOwnedBy db.squares e, db.config⟩) := by
  have hlen : ¬((squaresOf db.squares e).length = 0) := by
    simpa [List.length_eq_zero] using hne
  have hany : (squaresOf db.squares e).any (fun s => s.locked) = false :=
    List.any_eq_false.mpr (by intro x hx; simp [hall x hx])
  simp only [lockPost, noLockFaults, Bool.false_eq_true, reduceIte, if_neg hlen, hany]
  by_cases hc : countLocked (lockAllOwnedBy db.squares e) = 100
  · rw [if_pos (by simpa using hc), if_pos hc]
    cases hcfg : db.config with
    | none => simp
    | some cfg => simp
  · rw [if_neg (by simpa using hc), if_neg hc]

theorem lockPost_config_characterization (db : DB) (f : LockFaults) (e : String)
    (rd cd : Nat → Nat) :
    (lockPost db f (some e) rd cd).2.config = db.config ∨
      (db.config = none ∧ countLocked (lockAllOwnedBy db.squares e) = 100 ∧
       (lockPost db f (some e) rd cd).2.config =
         some ⟨generateRandomSequence rd, generateRandomSequence cd⟩) := by
  simp only [lockPost]
  by_cases hf : f.fetchFails = true
  · simp [hf]
  · simp only [hf, reduceIte]
    by_cases hlen : (squaresOf db.squares e).length = 0
    · simp [hlen]
    · simp only [hlen, reduceIte]
      by_cases hany : (squaresOf db.squares e).any (fun s => s.locked) = true
      · simp [hany]
      · simp only [hany, Bool.false_eq_true, reduceIte]
        by_cases hupd : f.updateFails = true
        · simp [hupd]
        · simp only [hupd, reduceIte]
          by_cases hcount :
              (if f.countFails = true then none
               else some (countLocked (lockAllOwnedBy db.squares e))) = some 100
          · simp only [hcount, reduceIte]
            have hc100 : countLocked (lockAllOwnedBy db.squares e) = 100 := by
              by_cases hcf : f.countFails = true
              · rw [if_pos hcf] at hcount
                exact absurd hcount (by simp)
              · rw [if_neg hcf] at hcount
                simpa using hcount
            cases hcfg : db.config with
            | some cfg =>
                by_cases hcrf : f.configReadFails = true
                · simp [hcrf, hcfg]
                · simp [hcrf, hcfg]
            | none =>
                by_cases hcrf : f.configReadFails = true
                · simp only [hcrf, reduceIte, hcfg, Option.isSome_none, Bool.or_false]
                  by_cases hcif : f.configInsertFails = true
                  · simp [hcif, hcfg]
                  · simp only [hcif, Bool.false_eq_true, reduceIte]
                    exact Or.inr ⟨trivial, hc100, trivial⟩
                · simp only [hcrf, Bool.false_eq_true, reduceIte, hcfg,
                    Option.isSome_none, Bool.or_false]
                  by_cases hcif : f.configInsertFails = true
                  · simp [hcif, hcfg]
                  · simp only [hcif, Bool.false_eq_true, reduceIte]
                    exact Or.inr ⟨trivial, hc100, trivial⟩
          · simp only [hcount, reduceIte]
            exact Or.inl rfl

theorem lockPost_noFaults_squares (db : DB) (e : String) (rd cd : Nat → Nat)
    (hne : squaresOf db.squares e ≠ [])
    (hall : ∀ s ∈ squaresOf db.squares e, s.locked = false) :
    (lockPost db noLockFaults (some e) rd cd).2.squares = lockAllOwnedBy db.squares e := by
  rw [lockPost_noFaults_eq db e rd cd hne hall]
  by_cases hc : countLocked (lockAllOwnedBy db.squares e) = 100
  · rw [if_pos hc]
    cases db.config <;> rfl
  · rw [if_neg hc]

/-! ### C2 — at-most-once generation of the configuration -/

/-- **C2.** The lock-in handler durably inserts a configuration only when the
locked count taken right after the caller's own cells were locked is exactly
100 and the singleton was absent; a present singleton is never replaced (under
any store-fault pattern), and on the grid-full path a present singleton is
returned unchanged, while an absent one is generated and stored. -/
theorem lockIn_generation_exactly_once (db : DB) (e : String) (rd cd : Nat → Nat) :
    (∀ f : LockFaults, (lockPost db f (some e) rd cd).2.config ≠ db.config →
      db.config = none ∧ countLocked (lockAllOwnedBy db.squares e) = 100) ∧
    (∀ f : LockFaults, ∀ cfg, db.config = some cfg →
      (lockPost db f (some e) rd cd).2.config = some cfg) ∧
    (∀ cfg, db.config = some cfg → squaresOf db.squares e ≠ [] →
      (∀ s ∈ squaresOf db.squares e, s.locked = false) →
      countLocked (lockAllOwnedBy db.squares e) = 100 →
      lockPost db noLockFaults (some e) rd cd =
        (.success (squaresOf db.squares e).length (some cfg),
         ⟨lockAllOwnedBy db.squares e, some cfg⟩)) ∧
    (db.config = none → squaresOf db.squares e ≠ [] →
      (∀ s ∈ squaresOf db.squares e, s.locked = false) →
      countLocked (lockAllOwnedBy db.squares e) = 100 →
      lockPost db noLockFaults (some e) rd cd =
        (.success (squaresOf db.squares e).length
           (some ⟨generateRandomSequence rd, generateRandomSequence cd⟩),
         ⟨lockAllOwnedBy db.squares e,
          some ⟨generateRandomSequence rd, generateRandomSequence cd⟩⟩)) := by
  refine ⟨?_, ?_, ?_, ?_⟩
  · intro f hchanged
    rcases lockPost_config_characterization db f e rd cd with h | ⟨h1, h2, _⟩
    · exact absurd h hchanged
    · exact ⟨h1, h2⟩
  · intro f cfg hcfg
    rcases lockPost_config_characterization db f e rd cd with h | ⟨h1, _, _⟩
    · rw [h, hcfg]
    · rw [hcfg] at h1
      exact Option.noConfusion h1
  · intro cfg hcfg hne hall hc
    rw [lockPost_noFaults_eq db e rd cd hne hall, if_pos hc, hcfg]
  · intro hcfg hne hall hc
    rw [lockPost_noFaults_eq db e rd cd hne hall, if_pos hc, hcfg]

/-- Witness for C2 on a full grid: generation fires when the singleton is
absent, and a present singleton survives and is returned unchanged. -/
theorem lockIn_generation_exactly_once_witness :
    ((DB.mk fullGrid none).config = none ∧
      (lockPost ⟨fullGrid, some sampleConfig⟩ noLockFaults (some "alice@x.com")
          (fun _ => 0) (fun _ => 0)).2.config = some sampleConfig) ∧
    (lockPost ⟨fullGrid, none⟩ noLockFaults (some "alice@x.com")
        (fun _ => 0) (fun _ => 0)).2.config =
      some ⟨generateRandomSequence (fun _ => 0), generateRandomSequence (fun _ => 0)⟩ := by
  constructor
  · exact ⟨rfl, (lockIn_generation_exactly_once ⟨fullGrid, some sampleConfig⟩ "alice@x.com"
      (fun _ => 0) (fun _ => 0)).2.1 noLockFaults sampleConfig rfl⟩
  · have h := (lockIn_generation_exactly_once ⟨fullGrid, none⟩ "alice@x.com"
      (fun _ => 0) (fun _ => 0)).2.2.2 rfl (by decide) (by decide) (by decide)
    rw [h]

/-! ### C4 — lock-in guards and the bulk update -/

/-- **C4.** `lockIn` fails BadRequest (400) with no state change when the
participant owns no cells, fails BadRequest (400) with no state change when
any owned cell is already locked, and otherwise applies the single bulk
update that sets `locked = true` on every cell owned by the participant. -/
theorem lockIn_guards_and_bulk_update (db : DB) (e : String) (rd cd : Nat → Nat) :
    (squaresOf db.squares e = [] →
      lockPost db noLockFaults (some e) rd cd = (.noSquaresToLock, db) ∧
      LockResponse.noSquaresToLock.status = 400) ∧
    ((∃ s ∈ squaresOf db.squares e, s.locked = true) →
      lockPost db noLockFaults (some e) rd cd = (.alreadyLocked, db) ∧
      LockResponse.alreadyLocked.status = 400) ∧
    (squaresOf db.squares e ≠ [] →
      (∀ s ∈ squaresOf db.squares e, s.locked = false) →
      (lockPost db noLockFaults (some e) rd cd).2.squares = lockAllOwnedBy db.squares e ∧
      ∀ s ∈ (lockPost db noLockFaults (some e) rd cd).2.squares,
        s.email = e → s.locked = true) := by
  refine ⟨?_, ?_, ?_⟩
  · intro h
    refine ⟨?_, rfl⟩
    simp [lockPost, noLockFaults, h]
  · rintro ⟨s, hs, hl⟩
    refine ⟨?_, rfl⟩
    have hlen : ¬((squaresOf db.squares e).length = 0) := by
      simp only [List.length_eq_zero]
      intro h
      rw [h] at hs
      exact absurd hs (List.not_mem_nil s)
    have hany : (squaresOf db.squares e).any (fun s => s.locked) = true :=
      List.any_eq_true.mpr ⟨s, hs, hl⟩
    simp [lockPost, noLockFaults, hlen, hany]
  · intro hne hall
    have hsq := lockPost_noFaults_squares db e rd cd hne hall
    refine ⟨hsq, ?_⟩
    rw [hsq]
    exact lockAllOwnedBy_locks db.squares e

/-- Witness for C4: the three lock-in outcomes at concrete inputs. -/
theorem lockIn_guards_and_bulk_update_witness :
    (lockPost ⟨[], none⟩ noLockFaults (some "alice@x.com") (fun _ => 0) (fun _ => 0) =
      (.noSquaresToLock, ⟨[], none⟩)) ∧
    (lockPost ⟨[⟨1, 1, "alice@x.com", true⟩], none⟩ noLockFaults (some "alice@x.com")
        (fun _ => 0) (fun _ => 0) =
      (.alreadyLocked, ⟨[⟨1, 1, "alice@x.com", true⟩], none⟩)) ∧
    ((lockPost ⟨[⟨1, 1, "alice@x.com", false⟩], none⟩ noLockFaults (some "alice@x.com")
        (fun _ => 0) (fun _ => 0)).2.squares =
      lockAllOwnedBy [⟨1, 1, "alice@x.com", false⟩] "alice@x.com") := by
  refine ⟨?_, ?_, ?_⟩
  · exact ((lockIn_guards_and_bulk_update ⟨[], none⟩ "alice@x.com"
      (fun _ => 0) (fun _ => 0)).1 rfl).1
  · exact ((lockIn_guards_and_bulk_update ⟨[⟨1, 1, "alice@x.com", true⟩], none⟩ "alice@x.com"
      (fun _ => 0) (fun _ => 0)).2.1 ⟨⟨1, 1, "alice@x.com", true⟩, by decide, rfl⟩).1
  · exact ((lockIn_guards_and_bulk_update ⟨[⟨1, 1, "alice@x.com", false⟩], none⟩ "alice@x.com"
      (fun _ => 0) (fun _ => 0)).2.2 (by decide) (by decide)).1

/-! ### C9 — frame of a successful lock-in -/

/-- **C9.** A successful `lockIn` neither creates nor deletes cells and never
changes any cell's coordinates or owner: the table keeps its length and its
per-row `(row, col, owner)` projection, rows of every other participant are
exactly unchanged, and the only effect is `locked = true` on the caller's
rows. -/
theorem lockIn_frame (db : DB) (e : String) (rd cd : Nat → Nat)
    (hne : squaresOf db.squares e ≠ [])
    (hall : ∀ s ∈ squaresOf db.squares e, s.locked = false) :
    (lockPost db noLockFaults (some e) rd cd).2.squares.length = db.squares.length ∧
    (lockPost db noLockFaults (some e) rd cd).2.squares.map
        (fun s => (s.row_num, s.col_num, s.email)) =
      db.squares.map (fun s => (s.row_num, s.col_num, s.email)) ∧
    (lockPost db noLockFaults (some e) rd cd).2.squares.filter (fun s => !(s.email == e)) =
      db.squares.filter (fun s => !(s.email == e)) ∧
    ∀ s ∈ (lockPost db noLockFaults (some e) rd cd).2.squares,
      s.email = e → s.locked = true := by
  have hsq := lockPost_noFaults_squares db e rd cd hne hall
  rw [hsq]
  exact ⟨lockAllOwnedBy_length db.squares e, lockAllOwnedBy_identity db.squares e,
    lockAllOwnedBy_other_unchanged db.squares e, lockAllOwnedBy_locks db.squares e⟩

/-- Witness for C9 on a two-owner grid. -/
theorem lockIn_frame_witness :
    ((lockPost ⟨[⟨1, 1, "alice@x.com", false⟩, ⟨2, 2, "bob@x.com", false⟩], none⟩
        noLockFaults (some "alice@x.com") (fun _ => 0) (fun _ => 0)).2.squares.length = 2) ∧
    ((lockPost ⟨[⟨1, 1, "alice@x.com", false⟩, ⟨2, 2, "bob@x.com", false⟩], none⟩
        noLockFaults (some "alice@x.com") (fun _ => 0) (fun _ => 0)).2.squares.filter
          (fun s => !(s.email == "alice@x.com")) =
      [⟨2, 2, "bob@x.com", false⟩]) := by
  have h := lockIn_frame ⟨[⟨1, 1, "alice@x.com", false⟩, ⟨2, 2, "bob@x.com", false⟩], none⟩
    "alice@x.com" (fun _ => 0) (fun _ => 0) (by decide) (by decide)
  exact ⟨h.1.trans (by decide), h.2.2.1.trans (by decide)⟩

/-! ### C3 — permutation validity of the generated sequences -/

/-- **C3.** For every sequence of random draws, the Fisher–Yates generator
returns a permutation of `{0,…,9}`: a list of length 10 with no repeats whose
members are exactly the values below 10.  Both `rowSequence` and
`colSequence` are `generateRandomSequence` applied to their own independent
draw streams, so this covers each of them. -/
theorem generateRandomSequence_is_permutation (draws : Nat → Nat) :
    (generateRandomSequence draws).Perm (List.range 10) ∧
    (generateRandomSequence draws).length = 10 ∧
    (generateRandomSequence draws).Nodup ∧
    (∀ v : Nat, v ∈ generateRandomSequence draws ↔ v < 10) := by
  have h := generateRandomSequence_perm draws
  refine ⟨h, h.length_eq.trans (List.length_range 10),
    h.nodup_iff.mpr (List.nodup_range 10), fun v => h.mem_iff.trans List.mem_range⟩

/-! ### Helper case analyses for lock finality (C7) -/

theorem squaresPost_alreadyLocked_eq (g : Grid) (e : String) (row col : Int)
    (hr0 : 0 ≤ row) (hr9 : row ≤ 9) (hc0 : 0 ≤ col) (hc9 : col ≤ 9)
    (hguard : lockedSquaresOf g e ≠ []) :
    squaresPost g noSquaresFaults (some e) row col = (.alreadyLockedIn, g) := by
  have hrange : ¬(row < 0 || row > 9 || col < 0 || col > 9 : Bool) = true := by
    simp only [Bool.or_eq_true, decide_eq_true_eq]
    push_neg
    omega
  cases hls : lockedSquaresOf g e with
  | nil => exact absurd hls hguard
  | cons t ts =>
      simp only [squaresPost, noSquaresFaults, if_neg hrange, Bool.false_eq_true, reduceIte,
        hls, List.take_succ_cons, List.take_zero, List.length_cons, List.length_nil,
        gt_iff_lt]
      rw [if_pos (Nat.zero_lt_succ 0)]

theorem squaresPost_state_cases (g : Grid) (e : String) (row col : Int) :
    (squaresPost g noSquaresFaults (some e) row col).2 = g ∨
    (lockedSquaresOf g e = [] ∧
      (squaresPost g noSquaresFaults (some e) row col).2 = deleteSquare g row col e) ∨
    (lockedSquaresOf g e = [] ∧
      (squaresPost g noSquaresFaults (some e) row col).2 = g ++ [⟨row, col, e, false⟩]) := by
  simp only [squaresPost, noSquaresFaults]
  by_cases hrange : (row < 0 || row > 9 || col < 0 || col > 9 : Bool) = true
  · rw [if_pos hrange]
    exact Or.inl rfl
  · rw [if_neg hrange]
    simp only [Bool.false_eq_true, reduceIte]
    cases hls : lockedSquaresOf g e with
    | cons t ts =>
        simp only [List.take_succ_cons, List.take_zero, List.length_cons, List.length_nil,
          gt_iff_lt]
        rw [if_pos (Nat.zero_lt_succ 0)]
        exact Or.inl rfl
    | nil =>
        simp only [List.take_nil, List.length_nil, gt_iff_lt, lt_self_iff_false, reduceIte]
        cases hsq : singleSquare g row col with
        | some sq =>
            dsimp only
            by_cases he : sq.email = e
            · rw [if_neg (by simpa using he)]
              by_cases hl : sq.locked = true
              · rw [if_pos hl]
                exact Or.inl rfl
              · rw [if_neg hl]
                simp only [Bool.false_eq_true, reduceIte]
                exact Or.inr (Or.inl ⟨by trivial, by trivial⟩)
            · rw [if_pos (by simpa using he)]
              exact Or.inl rfl
        | none =>
            dsimp only
            cases hins : insertSquare g row col e with
            | none => exact Or.inl rfl
            | some g' =>
                have : g' = g ++ [⟨row, col, e, false⟩] := by
                  rw [insertSquare] at hins
                  by_cases hany : (g.any fun s => s.row_num == row && s.col_num == col) = true
                  · rw [if_pos hany] at hins
                    exact Option.noConfusion hins
                  · rw [if_neg hany] at hins
                    exact (Option.some.inj hins).symm
                subst this
                exact Or.inr (Or.inr ⟨by trivial, by simp⟩)

theorem filter_email_deleteSquare (g : Grid) (row col : Int) (u p : String) (hup : u ≠ p) :
    (deleteSquare g row col u).filter (fun s => s.email == p) =
      g.filter (fun s => s.email == p) := by
  rw [deleteSquare, List.filter_filter]
  refine List.filter_congr fun s _ => ?_
  show ((s.email == p) &&
      !(s.row_num == row && s.col_num == col && s.email == u)) = (s.email == p)
  by_cases hp : s.email = p
  · have hu : (p == u) = false := beq_eq_false_iff_ne.mpr fun h => hup h.symm
    rw [hp, hu]
    simp
  · have hfalse : (s.email == p) = false := beq_eq_false_iff_ne.mpr hp
    rw [hfalse]
    simp

theorem filter_email_append_other (g : Grid) (x : Square) (p : String) (hx : x.email ≠ p) :
    (g ++ [x]).filter (fun s => s.email == p) = g.filter (fun s => s.email == p) := by
  rw [List.filter_append]
  have : [x].filter (fun s => s.email == p) = [] := by
    rw [List.filter_eq_nil_iff]
    intro a ha
    have : a = x := by simpa using ha
    simp [this, hx]
  rw [this, List.append_nil]

theorem filter_email_lockAllOwnedBy (g : Grid) (u p : String)
    (h : u = p → ∀ s ∈ g, s.email = p → s.locked = true) :
    (lockAllOwnedBy g u).filter (fun s => s.email == p) =
      g.filter (fun s => s.email == p) := by
  rw [lockAllOwnedBy, List.filter_map]
  have hemail : ∀ s : Square,
      (if s.email == u then { s with locked := true } else s).email = s.email := by
    intro s
    by_cases hu : s.email = u <;> simp [hu]
  have hfilter :
      List.filter ((fun s => s.email == p) ∘
          fun s => if s.email == u then { s with locked := true } else s) g =
        List.filter (fun s => s.email == p) g :=
    List.filter_congr fun s _ => by
      by_cases hu : s.email = u <;> simp [Function.comp, hu]
  rw [hfilter]
  refine (List.map_congr_left fun s hs => ?_).trans (List.map_id _)
  have hp : s.email = p := by
    have := (List.mem_filter.mp hs).2
    simpa using this
  by_cases hu : s.email = u
  · have hup : u = p := hu ▸ hp
    have hl : s.locked = true := h hup s (List.mem_filter.mp hs).1 hp
    rw [if_pos (by simpa using hu)]
    cases s
    simp only [Square.mk.injEq]
    simp_all
  · rw [if_neg (by simpa using hu)]
    rfl

theorem lockPost_squares_cases (db : DB) (e : String) (rd cd : Nat → Nat) :
    (lockPost db noLockFaults (some e) rd cd).2.squares = db.squares ∨
    (lockPost db noLockFaults (some e) rd cd).2.squares = lockAllOwnedBy db.squares e := by
  by_cases hne : squaresOf db.squares e = []
  · left
    simp [lockPost, noLockFaults, hne]
  · by_cases hany : (squaresOf db.squares e).any (fun s => s.locked) = true
    · left
      have hlen : ¬((squaresOf db.squares e).length = 0) := by
        simpa [List.length_eq_zero] using hne
      simp [lockPost, noLockFaults, hlen, hany]
    · right
      refine lockPost_noFaults_squares db e rd cd hne ?_
      intro s hs
      have := List.any_eq_false.mp (by simpa using hany) s hs
      simpa using this

/-! ### C7 — lock finality -/

/-- **C7.** Once a participant's lock-in has succeeded (they own at least one
cell and all their cells are locked): every in-range toggle by them hits the
already-locked-participant guard (403) with no state change, every toggle by
them fails with no state change, every further lock-in by them fails
BadRequest (400) with no state change, and no core operation — a toggle or a
lock-in by anyone, or an administrative bulk lock — ever changes their rows
again. -/
theorem lock_finality (g : Grid) (p : String)
    (howns : ∃ s ∈ g, s.email = p)
    (hlocked : ∀ s ∈ g, s.email = p → s.locked = true) :
    (∀ row col : Int, 0 ≤ row → row ≤ 9 → 0 ≤ col → col ≤ 9 →
      squaresPost g noSquaresFaults (some p) row col = (.alreadyLockedIn, g) ∧
      SquaresResponse.alreadyLockedIn.status = 403) ∧
    (∀ row col : Int,
      (squaresPost g noSquaresFaults (some p) row col).2 = g ∧
      (squaresPost g noSquaresFaults (some p) row col).1.status ≠ 200) ∧
    (∀ (cfg : Option Config) (rd cd : Nat → Nat),
      lockPost ⟨g, cfg⟩ noLockFaults (some p) rd cd = (.alreadyLocked, ⟨g, cfg⟩) ∧
      LockResponse.alreadyLocked.status = 400) ∧
    (∀ (u : String) (row col : Int),
      (squaresPost g noSquaresFaults (some u) row col).2.filter (fun s => s.email == p) =
        g.filter (fun s => s.email == p)) ∧
    (∀ (u : String) (cfg : Option Config) (rd cd : Nat → Nat),
      (lockPost ⟨g, cfg⟩ noLockFaults (some u) rd cd).2.squares.filter
          (fun s => s.email == p) =
        g.filter (fun s => s.email == p)) ∧
    (∀ (admin em : String) (uf : Bool),
      (adminLockUser g uf (some admin) em).2.filter (fun s => s.email == p) =
        g.filter (fun s => s.email == p)) := by
  obtain ⟨s0, hs0, he0⟩ := howns
  have hl0 := hlocked s0 hs0 he0
  have hguard : lockedSquaresOf g p ≠ [] := by
    have hmem : s0 ∈ lockedSquaresOf g p :=
      List.mem_filter.mpr ⟨hs0, by simp [he0, hl0]⟩
    exact List.ne_nil_of_mem hmem
  have hsqOf : s0 ∈ squaresOf g p := List.mem_filter.mpr ⟨hs0, by simp [he0]⟩
  refine ⟨?_, ?_, ?_, ?_, ?_, ?_⟩
  · intro row col hr0 hr9 hc0 hc9
    exact ⟨squaresPost_alreadyLocked_eq g p row col hr0 hr9 hc0 hc9 hguard, rfl⟩
  · intro row col
    by_cases hrange : (row < 0 || row > 9 || col < 0 || col > 9 : Bool) = true
    · have : squaresPost g noSquaresFaults (some p) row col = (.invalidRowCol, g) := by
        simp only [squaresPost, if_pos hrange]
      rw [this]
      exact ⟨rfl, by simp [SquaresResponse.status]⟩
    · have hbounds : 0 ≤ row ∧ row ≤ 9 ∧ 0 ≤ col ∧ col ≤ 9 := by
        simp only [Bool.or_eq_true, decide_eq_true_eq] at hrange
        push_neg at hrange
        omega
      rw [squaresPost_alreadyLocked_eq g p row col hbounds.1 hbounds.2.1 hbounds.2.2.1
        hbounds.2.2.2 hguard]
      exact ⟨rfl, by simp [SquaresResponse.status]⟩
  · intro cfg rd cd
    have hlen : ¬((squaresOf g p).length = 0) := by
      simp only [List.length_eq_zero]
      intro h
      rw [h] at hsqOf
      exact absurd hsqOf (List.not_mem_nil s0)
    have hany : (squaresOf g p).any (fun s => s.locked) = true :=
      List.any_eq_true.mpr ⟨s0, hsqOf, hl0⟩
    refine ⟨?_, rfl⟩
    simp [lockPost, noLockFaults, hlen, hany]
  · intro u row col
    rcases squaresPost_state_cases g u row col with h | ⟨hg, h⟩ | ⟨hg, h⟩
    · rw [h]
    · have hup : u ≠ p := fun hup => hguard (hup ▸ hg)
      rw [h]
      exact filter_email_deleteSquare g row col u p hup
    · have hup : u ≠ p := fun hup => hguard (hup ▸ hg)
      rw [h]
      exact filter_email_append_other g ⟨row, col, u, false⟩ p hup
  · intro u cfg rd cd
    rcases lockPost_squares_cases ⟨g, cfg⟩ u rd cd with h | h
    · rw [h]
    · rw [h]
      exact filter_email_lockAllOwnedBy g u p (fun hup => hup ▸ hlocked)
  · intro admin em uf
    by_cases hadm : (!(isAdmin admin)) = true
    · simp [adminLockUser, hadm]
    · simp only [adminLockUser, hadm, Bool.false_eq_true, reduceIte]
      by_cases hem : em = ""
      · rw [if_pos hem]
      · rw [if_neg hem]
        cases uf with
        | true => simp
        | false =>
            simp only [Bool.false_eq_true, reduceIte]
            exact filter_email_lockAllOwnedBy g (lowercase em) p (fun hup => hup ▸ hlocked)

/-- Witness for C7 on a grid where alice is locked in and bob is not. -/
theorem lock_finality_witness :
    (squaresPost [⟨1, 1, "alice@x.com", true⟩, ⟨2, 2, "bob@x.com", false⟩]
        noSquaresFaults (some "alice@x.com") 3 4 =
      (.alreadyLockedIn, [⟨1, 1, "alice@x.com", true⟩, ⟨2, 2, "bob@x.com", false⟩])) ∧
    (lockPost ⟨[⟨1, 1, "alice@x.com", true⟩, ⟨2, 2, "bob@x.com", false⟩], none⟩
        noLockFaults (some "alice@x.com") (fun _ => 0) (fun _ => 0) =
      (.alreadyLocked,
       ⟨[⟨1, 1, "alice@x.com", true⟩, ⟨2, 2, "bob@x.com", false⟩], none⟩)) ∧
    ((squaresPost [⟨1, 1, "alice@x.com", true⟩, ⟨2, 2, "bob@x.com", false⟩]
        noSquaresFaults (some "bob@x.com") 1 1).2.filter
          (fun s => s.email == "alice@x.com") =
      [⟨1, 1, "alice@x.com", true⟩]) ∧
    ((adminLockUser [⟨1, 1, "alice@x.com", true⟩, ⟨2, 2, "bob@x.com", false⟩] false
        (some "your-admin-email@example.com") "alice@x.com").2.filter
          (fun s => s.email == "alice@x.com") =
      [⟨1, 1, "alice@x.com", true⟩]) := by
  have h := lock_finality [⟨1, 1, "alice@x.com", true⟩, ⟨2, 2, "bob@x.com", false⟩]
    "alice@x.com" ⟨⟨1, 1, "alice@x.com", true⟩, by decide, rfl⟩ (by decide)
  refine ⟨(h.1 3 4 (by decide) (by decide) (by decide) (by decide)).1, ?_, ?_, ?_⟩
  · exact (h.2.2.1 none (fun _ => 0) (fun _ => 0)).1
  · exact (h.2.2.2.1 "bob@x.com" 1 1).trans (by decide)
  · exact (h.2.2.2.2.2 "your-admin-email@example.com" "alice@x.com" false).trans (by decide)

/-! ### C10 — administrative lock-user -/

/-- **C10.** For an admin caller and any non-empty email, the administrative
lock-user operation reports success and sets `locked = true` on every cell
owned by the lowercased email, with none of `lockIn`'s guards: it succeeds
unchanged when that participant owns no cells, and succeeds unchanged when
the participant's cells are already locked. -/
theorem admin_lock_user_no_guards (g : Grid) (u email : String)
    (hadm : isAdmin u = true) (hne : email ≠ "") :
    (adminLockUser g false (some u) email).1 = .success 0 ∧
    (adminLockUser g false (some u) email).2 = lockAllOwnedBy g (lowercase email) ∧
    (∀ s ∈ (adminLockUser g false (some u) email).2,
      s.email = lowercase email → s.locked = true) ∧
    ((∀ s ∈ g, s.email ≠ lowercase email) → (adminLockUser g false (some u) email).2 = g) ∧
    ((∀ s ∈ g, s.email = lowercase email → s.locked = true) →
      (adminLockUser g false (some u) email).2 = g) := by
  have heq : adminLockUser g false (some u) email =
      (.success 0, lockAllOwnedBy g (lowercase email)) := by
    simp [adminLockUser, hadm, hne]
  rw [heq]
  refine ⟨rfl, rfl, lockAllOwnedBy_locks g (lowercase email), ?_, ?_⟩
  · intro h
    exact lockAllOwnedBy_of_all_locked g (lowercase email)
      (fun s hs he => absurd he (h s hs))
  · exact lockAllOwnedBy_of_all_locked g (lowercase email)

/-- Witness for C10: locking `Alice@X.com` locks the row owned by the
lowercased address, and the operation succeeds unchanged both with no owned
rows and with already-locked rows. -/
theorem admin_lock_user_no_guards_witness :
    ((adminLockUser [⟨1, 1, "alice@x.com", false⟩] false
        (some "your-admin-email@example.com") "Alice@X.com").2 =
      [⟨1, 1, "alice@x.com", true⟩]) ∧
    ((adminLockUser [⟨2, 2, "bob@x.com", false⟩] false
        (some "your-admin-email@example.com") "alice@x.com").1 = .success 0) ∧
    ((adminLockUser [⟨2, 2, "bob@x.com", false⟩] false
        (some "your-admin-email@example.com") "alice@x.com").2 =
      [⟨2, 2, "bob@x.com", false⟩]) ∧
    ((adminLockUser [⟨1, 1, "alice@x.com", true⟩] false
        (some "your-admin-email@example.com") "alice@x.com").2 =
      [⟨1, 1, "alice@x.com", true⟩]) := by
  refine ⟨?_, ?_, ?_, ?_⟩
  · exact ((admin_lock_user_no_guards [⟨1, 1, "alice@x.com", false⟩]
      "your-admin-email@example.com" "Alice@X.com" (by decide) (by decide)).2.1).trans
      (by decide)
  · exact (admin_lock_user_no_guards [⟨2, 2, "bob@x.com", false⟩]
      "your-admin-email@example.com" "alice@x.com" (by decide) (by decide)).1
  · exact (admin_lock_user_no_guards [⟨2, 2, "bob@x.com", false⟩]
      "your-admin-email@example.com" "alice@x.com" (by decide) (by decide)).2.2.2.1
      (by decide)
  · exact (admin_lock_user_no_guards [⟨1, 1, "alice@x.com", true⟩]
      "your-admin-email@example.com" "alice@x.com" (by decide) (by decide)).2.2.2.2
      (by decide)

/-! ### C5 — what a lost insert race actually returns -/

/-- Counterexample to C5 as stated: at a concrete input where the advisory
read reports nothing but the coordinate is already owned (the lost-race
shape), the insert fails on the uniqueness constraint and the handler answers
the 500 store-failure response `Failed to claim square`, not `Forbidden`
(403) `taken`. -/
theorem insert_race_forbidden_counterexample :
    insertSquare [⟨3, 4, "alice@x.com", false⟩] 3 4 "bob@x.com" = none ∧
    squaresPost [⟨3, 4, "alice@x.com", false⟩] ⟨false, true, false, false⟩
        (some "bob@x.com") 3 4 =
      (.failedToClaim, [⟨3, 4, "alice@x.com", false⟩]) ∧
    SquaresResponse.failedToClaim.status = 500 ∧
    (squaresPost [⟨3, 4, "alice@x.com", false⟩] ⟨false, true, false, false⟩
        (some "bob@x.com") 3 4).1 ≠ .takenByAnother ∧
    (squaresPost [⟨3, 4, "alice@x.com", false⟩] ⟨false, true, false, false⟩
        (some "bob@x.com") 3 4).1.status ≠ 403 := by
  decide

/-- **C5 (amended).** When the claim path reaches the insert and the insert
fails because the coordinate already has a row (the uniqueness constraint,
i.e. the claimant lost the race), the operation fails with the 500
store-failure response `Failed to claim square` — the same error class as any
other insert failure — with no state change, not with `Forbidden` (403)
`taken`. -/
theorem insert_conflict_returns_store_error (g : Grid) (e : String) (row col : Int)
    (hr0 : 0 ≤ row) (hr9 : row ≤ 9) (hc0 : 0 ≤ col) (hc9 : col ≤ 9)
    (hguard : lockedSquaresOf g e = [])
    (hexists : squaresAt g row col ≠ []) :
    squaresPost g ⟨false, true, false, false⟩ (some e) row col = (.failedToClaim, g) ∧
    SquaresResponse.failedToClaim.status = 500 ∧
    SquaresResponse.failedToClaim ≠ .takenByAnother := by
  have hrange : ¬(row < 0 || row > 9 || col < 0 || col > 9 : Bool) = true := by
    simp only [Bool.or_eq_true, decide_eq_true_eq]
    push_neg
    omega
  have hins : insertSquare g row col e = none := by
    rw [insertSquare, if_pos]
    obtain ⟨s, hs⟩ := List.exists_mem_of_ne_nil _ hexists
    have hmem := List.mem_filter.mp hs
    exact List.any_eq_true.mpr ⟨s, hmem.1, hmem.2⟩
  refine ⟨?_, rfl, by decide⟩
  simp only [squaresPost, if_neg hrange, Bool.false_eq_true, reduceIte,
    hguard, List.take_nil, List.length_nil, gt_iff_lt, lt_self_iff_false, hins]

/-- Witness for the amended C5 at a concrete lost-race input. -/
theorem insert_conflict_returns_store_error_witness :
    squaresPost [⟨3, 4, "alice@x.com", false⟩] ⟨false, true, false, false⟩
        (some "bob@x.com") 3 4 =
      (.failedToClaim, [⟨3, 4, "alice@x.com", false⟩]) :=
  (insert_conflict_returns_store_error [⟨3, 4, "alice@x.com", false⟩] "bob@x.com" 3 4
    (by decide) (by decide) (by decide) (by decide) (by decide) (by decide)).1

/-! ### C6 — surfacing of store-level failures -/

/-- Counterexample to C6 as stated: a store-level failure of the
configuration read in the grid listing is not surfaced as Unavailable — the
handler answers domain success with `config: null` ("no configuration") even
though a configuration is stored; and a store-level failure of the
configuration insert in lock-in is swallowed into a success response. -/
theorem store_failure_coerced_counterexample :
    squaresGet ⟨[], some sampleConfig⟩ ⟨false, true⟩ = .ok [] none ∧
    squaresGet ⟨[], some sampleConfig⟩ ⟨false, true⟩ ≠ .failedToFetch ∧
    (lockPost ⟨fullGrid, none⟩ ⟨false, false, false, false, true⟩ (some "alice@x.com")
        (fun _ => 0) (fun _ => 0)).1 = .success 100 none ∧
    LockResponse.status (lockPost ⟨fullGrid, none⟩ ⟨false, false, false, false, true⟩
        (some "alice@x.com") (fun _ => 0) (fun _ => 0)).1 = 200 := by
  refine ⟨rfl, by decide, ?_, ?_⟩ <;> rfl

/-- **C6 (amended).** Store-level failures of the squares fetch in the grid
listing, of the user-squares fetch and the bulk lock update in lock-in, and
of the delete and the insert in the toggle are all surfaced as 500 responses
with no state change; but a failed configuration read in the grid listing is
coerced to domain success with "no configuration", and a failed configuration
insert in lock-in is swallowed into a success response. -/
theorem store_failure_surfacing (db : DB) (e : String) (rd cd : Nat → Nat) :
    (∀ cb : Bool, squaresGet db ⟨true, cb⟩ = .failedToFetch) ∧
    (squaresGet db ⟨false, true⟩ = .ok db.squares none) ∧
    (∀ uf cf crf cif : Bool,
      lockPost db ⟨true, uf, cf, crf, cif⟩ (some e) rd cd = (.failedToFetch, db) ∧
      LockResponse.failedToFetch.status = 500) ∧
    (squaresOf db.squares e ≠ [] →
      (∀ s ∈ squaresOf db.squares e, s.locked = false) →
      ∀ cf crf cif : Bool,
        lockPost db ⟨false, true, cf, crf, cif⟩ (some e) rd cd = (.failedToLock, db) ∧
        LockResponse.failedToLock.status = 500) ∧
    (∀ (g : Grid) (row col : Int) (sq : Square),
      0 ≤ row → row ≤ 9 → 0 ≤ col → col ≤ 9 →
      lockedSquaresOf g e = [] → squaresAt g row col = [sq] →
      sq.email = e → sq.locked = false →
      squaresPost g ⟨false, false, true, false⟩ (some e) row col = (.failedToRelease, g) ∧
      SquaresResponse.failedToRelease.status = 500) ∧
    (∀ (g : Grid) (row col : Int),
      0 ≤ row → row ≤ 9 → 0 ≤ col → col ≤ 9 →
      lockedSquaresOf g e = [] → squaresAt g row col = [] →
      squaresPost g ⟨false, false, false, true⟩ (some e) row col = (.failedToClaim, g) ∧
      SquaresResponse.failedToClaim.status = 500) ∧
    (squaresOf db.squares e ≠ [] →
      (∀ s ∈ squaresOf db.squares e, s.locked = false) →
      db.config = none → countLocked (lockAllOwnedBy db.squares e) = 100 →
      (lockPost db ⟨false, false, false, false, true⟩ (some e) rd cd).1 =
        .success (squaresOf db.squares e).length none) := by
  refine ⟨?_, ?_, ?_, ?_, ?_, ?_, ?_⟩
  · intro cb
    rfl
  · rfl
  · intro uf cf crf cif
    exact ⟨rfl, rfl⟩
  · intro hne hall cf crf cif
    have hlen : ¬((squaresOf db.squares e).length = 0) := by
      simpa [List.length_eq_zero] using hne
    refine ⟨?_, rfl⟩
    have hany : (squaresOf db.squares e).any (fun s => s.locked) = false :=
      List.any_eq_false.mpr (by intro x hx; simp [hall x hx])
    simp [lockPost, hlen, hany]
  · intro g row col sq hr0 hr9 hc0 hc9 hguard hone hemail hunlocked
    have hrange : ¬(row < 0 || row > 9 || col < 0 || col > 9 : Bool) = true := by
      simp only [Bool.or_eq_true, decide_eq_true_eq]
      push_neg
      omega
    have hsingle := singleSquare_of_squaresAt_single g row col sq hone
    refine ⟨?_, rfl⟩
    simp only [squaresPost, if_neg hrange, Bool.false_eq_true, reduceIte, hguard,
      List.take_nil, List.length_nil, gt_iff_lt, lt_self_iff_false, hsingle,
      hemail, ne_eq, not_true_eq_false, hunlocked]
  · intro g row col hr0 hr9 hc0 hc9 hguard hempty
    have hrange : ¬(row < 0 || row > 9 || col < 0 || col > 9 : Bool) = true := by
      simp only [Bool.or_eq_true, decide_eq_true_eq]
      push_neg
      omega
    refine ⟨?_, rfl⟩
    simp only [squaresPost, if_neg hrange, Bool.false_eq_true, reduceIte, hguard,
      List.take_nil, List.length_nil, gt_iff_lt, lt_self_iff_false,
      singleSquare_of_squaresAt_nil g row col hempty]
  · intro hne hall hcfg hcount
    have hlen : ¬((squaresOf db.squares e).length = 0) := by
      simpa [List.length_eq_zero] using hne
    have hany : (squaresOf db.squares e).any (fun s => s.locked) = false :=
      List.any_eq_false.mpr (by intro x hx; simp [hall x hx])
    simp [lockPost, hlen, hany, hcfg, hcount]

/-- Witness for the amended C6: each surfaced failure and each coerced one at
concrete inputs. -/
theorem store_failure_surfacing_witness :
    (squaresGet ⟨[], some sampleConfig⟩ ⟨true, false⟩ = .failedToFetch) ∧
    (squaresGet ⟨[], some sampleConfig⟩ ⟨false, true⟩ = .ok [] none) ∧
    (lockPost ⟨[⟨1, 1, "alice@x.com", false⟩], none⟩ ⟨true, false, false, false, false⟩
        (some "alice@x.com") (fun _ => 0) (fun _ => 0) =
      (.failedToFetch, ⟨[⟨1, 1, "alice@x.com", false⟩], none⟩)) ∧
    (lockPost ⟨[⟨1, 1, "alice@x.com", false⟩], none⟩ ⟨false, true, false, false, false⟩
        (some "alice@x.com") (fun _ => 0) (fun _ => 0) =
      (.failedToLock, ⟨[⟨1, 1, "alice@x.com", false⟩], none⟩)) ∧
    (squaresPost [⟨3, 4, "alice@x.com", false⟩] ⟨false, false, true, false⟩
        (some "alice@x.com") 3 4 =
      (.failedToRelease, [⟨3, 4, "alice@x.com", false⟩])) ∧
    (squaresPost [] ⟨false, false, false, true⟩ (some "alice@x.com") 3 4 =
      (.failedToClaim, [])) ∧
    ((lockPost ⟨fullGrid, none⟩ ⟨false, false, false, false, true⟩ (some "alice@x.com")
        (fun _ => 0) (fun _ => 0)).1 = .success 100 none) := by
  have h1 := store_failure_surfacing ⟨[], some sampleConfig⟩ "alice@x.com"
    (fun _ => 0) (fun _ => 0)
  have h2 := store_failure_surfacing ⟨[⟨1, 1, "alice@x.com", false⟩], none⟩ "alice@x.com"
    (fun _ => 0) (fun _ => 0)
  have h3 := store_failure_surfacing ⟨fullGrid, none⟩ "alice@x.com"
    (fun _ => 0) (fun _ => 0)
  refine ⟨h1.1 false, h1.2.1, (h2.2.2.1 false false false false).1, ?_, ?_, ?_, ?_⟩
  · exact ((h2.2.2.2.1 (by decide) (by decide) false false false).1)
  · exact (h2.2.2.2.2.1 [⟨3, 4, "alice@x.com", false⟩] 3 4 ⟨3, 4, "alice@x.com", false⟩
      (by decide) (by decide) (by decide) (by decide) (by decide) rfl rfl rfl).1
  · exact (h2.2.2.2.2.2.1 [] 3 4 (by decide) (by decide) (by decide) (by decide)
      (by decide) (by decide)).1
  · exact (h3.2.2.2.2.2.2 (by decide) (by decide) rfl (by decide)).trans (by decide)

end Olney
